import Mathlib

/-!
Verification of the serverless-workflow task interpreter
(`internal/workflows/workflow.go`): a shallow embedding of the Value model,
the mutable execution state, the task dispatcher, and the fork/branch
coordinator, followed by theorems about the executable semantics.
-/

/-- JSON-like values flowing through the interpreter: Go `interface{}`
payloads are null, booleans, numbers (int or float, modelled as rationals),
strings, arrays, and string-keyed objects.  `other` stands for any Go value
outside these kinds (e.g. a struct stored as a task result). -/
inductive Value where
  | null : Value
  | bool (b : Bool) : Value
  | num (q : ℚ) : Value
  | str (s : String) : Value
  | arr (elems : List Value) : Value
  | obj (fields : List (String × Value)) : Value
  | other (tag : String) : Value
deriving Repr

/-- The mutable execution state `map[string]interface{}`, represented as an
association list without duplicate keys (Go maps cannot hold duplicates). -/
abbrev WState := List (String × Value)

/-- `state[k]`: first-match lookup. -/
def stateGet : WState → String → Option Value
  | [], _ => none
  | (k', v) :: rest, k => if k' = k then some v else stateGet rest k

/-- `state[k] = v`: replace the binding in place if the key is present,
append it otherwise (Go map update semantics on the association list). -/
def stateSet : WState → String → Value → WState
  | [], k, v => [(k, v)]
  | (k', v') :: rest, k, v =>
    if k' = k then (k, v) :: rest else (k', v') :: stateSet rest k v

/-- One `switch` case as parsed from the workflow definition:
a label, an optional `when` expression, and a `then` target. -/
structure SwitchCase where
  label : String
  whenCond : Option String
  thenTarget : String
deriving Repr

/-- A task item of the workflow definition (`model.TaskItem`): a key plus a
kind-specific payload.  The dispatcher in `workflow.go` probes, in order,
`AsCallHTTPTask`, `AsForkTask`, `AsSetTask`, `AsDoTask`; `switchTask` and
`forTask` model items of the remaining DSL kinds, for which every `As*`
probe used by the dispatcher returns nil. -/
inductive TaskItem where
  | call (key : String) (method endpoint : String) (body : Value)
      (headers : List (String × String)) : TaskItem
  | fork (key : String) (branches : List TaskItem) : TaskItem
  | set (key : String) (assignments : List (String × Value)) : TaskItem
  | doTask (key : String) (body : List TaskItem) : TaskItem
  | switchTask (key : String) (cases : List SwitchCase) : TaskItem
  | forTask (key : String) (eachName inExpr : String) (body : List TaskItem) : TaskItem
deriving Repr

/-- `taskItem.Key`. -/
def TaskItem.key : TaskItem → String
  | .call k _ _ _ _ => k
  | .fork k _ => k
  | .set k _ => k
  | .doTask k _ => k
  | .switchTask k _ => k
  | .forTask k _ _ _ => k

/-- Task-level errors of the interpreter, one constructor per `fmt.Errorf`
site in `workflow.go`; `%w` wrapping becomes a nested `Err`. -/
inductive Err where
  | unsupportedTaskKind (key : String) : Err
  | emptyFork : Err
  | taskFailed (index : Nat) (key : String) (e : Err) : Err
  | callFailed (e : Err) : Err
  | branchFailed (index : Nat) (e : Err) : Err
  | branchTaskFailed (key : String) (e : Err) : Err
  | unsupportedBranchTask (key : String) : Err
  | unsupportedNestedBranchTask (key : String) : Err
  | nestedTaskFailed (key : String) (e : Err) : Err
  | external (msg : String) : Err
deriving Repr, DecidableEq

/-- `HTTPCallRequest`. -/
structure HTTPCallRequest where
  method : String
  endpoint : String
  body : Value
  headers : List (String × String)

/-- The external call collaborator: `HTTPCallActivity` (used by the main
dispatcher; internally routes temporal endpoints) and
`executeRegularHTTPCall` (used directly inside branches).  Both are opaque
I/O boundaries, modelled as oracles that the theorems quantify over. -/
structure Collaborator where
  httpCallActivity : HTTPCallRequest → Except Err Value
  regularHTTPCall : HTTPCallRequest → Except Err Value

/-- `executeHTTPTask`: run the HTTP call activity and wrap its error as
`"HTTP call failed: %w"`. -/
def executeHTTPTask (o : Collaborator) (method endpoint : String) (body : Value)
    (headers : List (String × String)) : Except Err Value :=
  match o.httpCallActivity ⟨method, endpoint, body, headers⟩ with
  | .error e => .error (.callFailed e)
  | .ok v => .ok v

/-- `executeBranchHTTPTask`: branches call `executeRegularHTTPCall` directly,
without the temporal-endpoint routing and without an extra wrap. -/
def executeBranchHTTPTask (o : Collaborator) (method endpoint : String) (body : Value)
    (headers : List (String × String)) : Except Err Value :=
  o.regularHTTPCall ⟨method, endpoint, body, headers⟩

/-- `for key, value := range setTask.Set { state[key] = value }`. -/
def applyAssignments (assignments : List (String × Value)) (s : WState) : WState :=
  assignments.foldl (fun acc kv => stateSet acc kv.1 kv.2) s

/-- `executeBranchSetTask` (identical body to `executeSetTaskItem`):
mutate the state, return the assignments map itself. -/
def executeBranchSetTask (assignments : List (String × Value)) (s : WState) :
    Except Err Value × WState :=
  (.ok (.obj assignments), applyAssignments assignments s)

/-- `executeBranchDoTask`: the nested loop inside a branch `do` task.
Only HTTP and Set nested items are handled; each result is written under
the nested item's key (no positional alias); errors are wrapped as
`"nested task %s failed: %w"` and returned with the mutations so far. -/
def executeBranchDoTask (o : Collaborator) (body : List TaskItem) (last : Value)
    (s : WState) : Except Err Value × WState :=
  match body with
  | [] => (.ok last, s)
  | t :: rest =>
    let step : Except Err Value × WState :=
      match t with
      | .call _ m ep b hd => (executeBranchHTTPTask o m ep b hd, s)
      | .set _ assignments => executeBranchSetTask assignments s
      | _ => (.error (.unsupportedNestedBranchTask t.key), s)
    match step with
    | (.error e, s1) => (.error (.nestedTaskFailed t.key e), s1)
    | (.ok r, s1) => executeBranchDoTask o rest r (stateSet s1 t.key r)

/-- The main loop of `ExecuteBranchActivity`: handle Do / HTTP / Set items,
record each result under the item's key, wrap any error as
`"branch task %s failed: %w"`. -/
def executeBranchTasks (o : Collaborator) (tasks : List TaskItem) (last : Value)
    (s : WState) : Except Err Value × WState :=
  match tasks with
  | [] => (.ok last, s)
  | t :: rest =>
    let step : Except Err Value × WState :=
      match t with
      | .doTask _ body => executeBranchDoTask o body .null s
      | .call _ m ep b hd => (executeBranchHTTPTask o m ep b hd, s)
      | .set _ assignments => executeBranchSetTask assignments s
      | _ => (.error (.unsupportedBranchTask t.key), s)
    match step with
    | (.error e, s1) => (.error (.branchTaskFailed t.key e), s1)
    | (.ok r, s1) => executeBranchTasks o rest r (stateSet s1 t.key r)

/-- `ExecuteBranchActivity`: copy the parent state into a fresh branch
state, run the branch's tasks against the copy, and return the wrapper
object `{branch_result, task_count, state}`.  The branch state never flows
back to the caller except inside this returned value. -/
def ExecuteBranchActivity (o : Collaborator) (tasks : List TaskItem)
    (pState : WState) : Except Err Value :=
  let branchState := pState
  match executeBranchTasks o tasks .null branchState with
  | (.error e, _) => .error e
  | (.ok last, finalState) =>
    .ok (.obj [("branch_result", last),
               ("task_count", .num (tasks.length : ℚ)),
               ("state", .obj finalState)])

/-- The join loop of `executeForkTaskItem`: `futures[i].Get` is read at
position `i`, so the assembled list is indexed by branch declaration order;
a branch error is wrapped as `"branch %d failed: %w"`.  Each branch is
wrapped as the single-item task list `model.TaskList{branch}` and receives
the fork-time parent state. -/
def joinBranches (o : Collaborator) (s : WState) : Nat → List TaskItem →
    Except Err (List Value)
  | _, [] => .ok []
  | i, b :: rest =>
    match ExecuteBranchActivity o [b] s with
    | .error e => .error (.branchFailed i e)
    | .ok v =>
      match joinBranches o s (i + 1) rest with
      | .error e => .error e
      | .ok vs => .ok (v :: vs)

/-- `executeForkTaskItem`: fail on an absent/empty branch list, otherwise
launch one branch activity per branch on the current state and join them in
declaration order.  The parent state is read, never written. -/
def executeForkTaskItem (o : Collaborator) (branches : List TaskItem)
    (s : WState) : Except Err Value :=
  match branches with
  | [] => .error .emptyFork
  | _ =>
    match joinBranches o s 0 branches with
    | .error e => .error e
    | .ok vs => .ok (.arr vs)

/-- The positional alias `fmt.Sprintf("task_%d_result", i)`. -/
def taskAlias (i : Nat) : String := "task_" ++ toString i ++ "_result"

/-- Lines 129-130 of `workflow.go`: after a task item succeeds, its result
is stored under the positional alias and then under the item's key. -/
def recordResult (s : WState) (i : Nat) (key : String) (r : Value) : WState :=
  stateSet (stateSet s (taskAlias i) r) key r

mutual

/-- `executeTasks` (generalized over the running index and Go's
`var lastResult interface{}` accumulator, both `0`/`nil` at entry):
execute the items in declaration order; on success record the result under
the positional alias and then under the item key; on failure wrap the error
as `"task %d (%s) failed: %w"` and stop, returning the state mutated so
far (Go mutates the map in place, so the caller keeps those mutations). -/
def executeTasksFrom (o : Collaborator) (i : Nat) (last : Value)
    (tasks : List TaskItem) (s : WState) : Except Err Value × WState :=
  match tasks with
  | [] => (.ok last, s)
  | t :: rest =>
    match executeTaskItem o t s with
    | (.error e, s1) => (.error (.taskFailed i t.key e), s1)
    | (.ok r, s1) => executeTasksFrom o (i + 1) r rest (recordResult s1 i t.key r)

/-- `executeTaskItem`: dispatch on the task kind.  HTTP calls go through the
activity; forks read but never write the current state; `set` mutates it;
`do` recurses into `executeTasks` on the same state (index restarts at 0);
every other kind is `"unsupported task type for task: %s"`. -/
def executeTaskItem (o : Collaborator) (t : TaskItem) (s : WState) :
    Except Err Value × WState :=
  match t with
  | .call _ m ep b hd => (executeHTTPTask o m ep b hd, s)
  | .fork _ branches => (executeForkTaskItem o branches s, s)
  | .set _ assignments => (.ok (.obj assignments), applyAssignments assignments s)
  | .doTask _ body => executeTasksFrom o 0 .null body s
  | .switchTask k _ => (.error (.unsupportedTaskKind k), s)
  | .forTask k _ _ _ => (.error (.unsupportedTaskKind k), s)

end

/-- `executeTasks(ctx, tasks, state)` as called from the workflow: index 0,
`lastResult = nil`. -/
def executeTasks (o : Collaborator) (tasks : List TaskItem) (s : WState) :
    Except Err Value × WState :=
  executeTasksFrom o 0 .null tasks s

/-- The task kinds recognized by the dispatcher's probe chain
(`AsCallHTTPTask` / `AsForkTask` / `AsSetTask` / `AsDoTask`); for every
other kind all four probes return nil and the dispatch falls through to the
unsupported-task error. -/
def supportedKind : TaskItem → Bool
  | .call _ _ _ _ _ => true
  | .fork _ _ => true
  | .set _ _ => true
  | .doTask _ _ => true
  | .switchTask _ _ => false
  | .forTask _ _ _ _ => false

/-- Modelled from the spec: `isTruthy` is called by the repository's tests
(`TestIsTruthy`, `TestExpressionToBooleanConversion` in `workflow_test.go`)
but its defining source file is not under `src/`.  The definition follows
spec section 4.2 — Null → false; Bool → itself; String → false iff empty;
Number → false iff numerically zero (integral or floating); Array/Object →
false iff empty; any other value kind → true — and agrees with all
fourteen expectations of `TestIsTruthy`. -/
def isTruthy : Value → Bool
  | .null => false
  | .bool b => b
  | .num q => decide (q ≠ 0)
  | .str s => decide (s ≠ "")
  | .arr [] => false
  | .arr (_ :: _) => true
  | .obj [] => false
  | .obj (_ :: _) => true
  | .other _ => true

/-- A collaborator whose external calls always succeed with a fixed payload. -/
def demoOracle : Collaborator :=
  ⟨fun _ => .ok (.str "http-ok"), fun _ => .ok (.str "http-ok")⟩

/-- A collaborator whose external calls always fail. -/
def failOracle : Collaborator :=
  ⟨fun _ => .error (.external "connection refused"),
   fun _ => .error (.external "connection refused")⟩

theorem stateGet_stateSet (s : WState) (k : String) (v : Value) (k' : String) :
    stateGet (stateSet s k v) k' = if k' = k then some v else stateGet s k' := by
  induction s with
  | nil =>
    by_cases h : k' = k
    · simp [stateSet, stateGet, h]
    · simp [stateSet, stateGet, h, Ne.symm h]
  | cons p rest ih =>
    obtain ⟨k0, v0⟩ := p
    by_cases h0 : k0 = k
    · subst h0
      by_cases h : k' = k0
      · simp [stateSet, stateGet, h]
      · simp [stateSet, stateGet, h, Ne.symm h]
    · simp only [stateSet, if_neg h0, stateGet, ih]
      by_cases h : k0 = k'
      · have hk : ¬ k' = k := h ▸ h0
        simp [h, hk]
      · simp [h]

theorem stateGet_stateSet_isSome (s : WState) (k : String) (v : Value) (k' : String)
    (h : (stateGet s k').isSome) : (stateGet (stateSet s k v) k').isSome := by
  rw [stateGet_stateSet]
  by_cases hk : k' = k
  · simp [hk]
  · simp [hk, h]

theorem executeTasksFrom_nil (o : Collaborator) (i : Nat) (last : Value) (s : WState) :
    executeTasksFrom o i last [] s = (.ok last, s) := rfl

theorem executeTasksFrom_cons_error (o : Collaborator) (i : Nat) (last : Value)
    (t : TaskItem) (rest : List TaskItem) (s : WState) (e : Err) (s1 : WState)
    (h : executeTaskItem o t s = (.error e, s1)) :
    executeTasksFrom o i last (t :: rest) s = (.error (.taskFailed i t.key e), s1) := by
  rw [executeTasksFrom, h]

theorem executeTasksFrom_cons_ok (o : Collaborator) (i : Nat) (last : Value)
    (t : TaskItem) (rest : List TaskItem) (s : WState) (r : Value) (s1 : WState)
    (h : executeTaskItem o t s = (.ok r, s1)) :
    executeTasksFrom o i last (t :: rest) s =
      executeTasksFrom o (i + 1) r rest (recordResult s1 i t.key r) := by
  rw [executeTasksFrom, h]

theorem executeTasksFrom_append (o : Collaborator) (xs ys : List TaskItem) :
    ∀ (i : Nat) (last : Value) (s : WState),
    executeTasksFrom o i last (xs ++ ys) s =
      match executeTasksFrom o i last xs s with
      | (.error e, s1) => (.error e, s1)
      | (.ok v, s1) => executeTasksFrom o (i + xs.length) v ys s1 := by
  induction xs with
  | nil =>
    intro i last s
    simp [executeTasksFrom_nil]
  | cons t rest ih =>
    intro i last s
    rw [List.cons_append]
    cases hstep : executeTaskItem o t s with
    | mk r1 s1 =>
      cases r1 with
      | error e =>
        rw [executeTasksFrom_cons_error o i last t (rest ++ ys) s e s1 hstep,
            executeTasksFrom_cons_error o i last t rest s e s1 hstep]
      | ok r =>
        rw [executeTasksFrom_cons_ok o i last t (rest ++ ys) s r s1 hstep,
            executeTasksFrom_cons_ok o i last t rest s r s1 hstep, ih]
        have hlen : i + (t :: rest).length = i + 1 + rest.length := by
          simp [List.length_cons]
          omega
        rw [hlen]

theorem executeTasksFrom_error_shape (o : Collaborator) :
    ∀ (tasks : List TaskItem) (i : Nat) (last : Value) (s : WState) (e : Err)
      (s' : WState),
    executeTasksFrom o i last tasks s = (.error e, s') →
    ∃ j k e0, e = .taskFailed j k e0 := by
  intro tasks
  induction tasks with
  | nil =>
    intro i last s e s' h
    rw [executeTasksFrom_nil] at h
    simp at h
  | cons t rest ih =>
    intro i last s e s' h
    cases hstep : executeTaskItem o t s with
    | mk r1 s1 =>
      cases r1 with
      | error e0 =>
        rw [executeTasksFrom_cons_error o i last t rest s e0 s1 hstep] at h
        injection h with h1 h2
        injection h1 with h3
        exact ⟨i, t.key, e0, h3.symm⟩
      | ok r =>
        rw [executeTasksFrom_cons_ok o i last t rest s r s1 hstep] at h
        exact ih (i + 1) r (recordResult s1 i t.key r) e s' h

theorem joinBranches_ok (o : Collaborator) (s : WState) :
    ∀ (branches : List TaskItem) (i : Nat) (vs : List Value),
    joinBranches o s i branches = .ok vs →
    vs.length = branches.length ∧
    ∀ (j : Nat) (b : TaskItem), branches[j]? = some b →
      ∃ w, ExecuteBranchActivity o [b] s = .ok w ∧ vs[j]? = some w := by
  intro branches
  induction branches with
  | nil =>
    intro i vs h
    simp only [joinBranches] at h
    injection h with h1
    subst h1
    exact ⟨rfl, by intro j b hj; simp at hj⟩
  | cons b rest ih =>
    intro i vs h
    simp only [joinBranches] at h
    cases hb : ExecuteBranchActivity o [b] s with
    | error e => rw [hb] at h; simp at h
    | ok w =>
      rw [hb] at h
      cases hrest : joinBranches o s (i + 1) rest with
      | error e => rw [hrest] at h; simp at h
      | ok ws =>
        rw [hrest] at h
        injection h with h1
        subst h1
        obtain ⟨hlen, hget⟩ := ih (i + 1) ws hrest
        refine ⟨by simp [hlen], ?_⟩
        intro j b' hj
        cases j with
        | zero =>
          simp only [List.getElem?_cons_zero] at hj
          injection hj with hj1
          subst hj1
          exact ⟨w, hb, by simp⟩
        | succ j' =>
          simp only [List.getElem?_cons_succ] at hj
          obtain ⟨w', hw', hv⟩ := hget j' b' hj
          exact ⟨w', hw', by simpa using hv⟩

theorem joinBranches_error_shape (o : Collaborator) (s : WState) :
    ∀ (branches : List TaskItem) (i : Nat) (e : Err),
    joinBranches o s i branches = .error e →
    ∃ j e0, e = .branchFailed j e0 := by
  intro branches
  induction branches with
  | nil =>
    intro i e h
    simp [joinBranches] at h
  | cons b rest ih =>
    intro i e h
    simp only [joinBranches] at h
    cases hb : ExecuteBranchActivity o [b] s with
    | error e0 =>
      rw [hb] at h
      injection h with h1
      exact ⟨i, e0, h1.symm⟩
    | ok w =>
      rw [hb] at h
      cases hrest : joinBranches o s (i + 1) rest with
      | error e1 =>
        rw [hrest] at h
        injection h with h1
        exact h1 ▸ ih (i + 1) e1 hrest
      | ok ws => rw [hrest] at h; simp at h

theorem applyAssignments_cons (kv : String × Value) (rest : List (String × Value))
    (s : WState) :
    applyAssignments (kv :: rest) s = applyAssignments rest (stateSet s kv.1 kv.2) := rfl

theorem stateGet_not_mem (M : WState) (k : String) (h : ¬ k ∈ M.map Prod.fst) :
    stateGet M k = none := by
  induction M with
  | nil => rfl
  | cons kv rest ih =>
    obtain ⟨k0, v0⟩ := kv
    simp only [List.map_cons, List.mem_cons] at h
    push_neg at h
    simp [stateGet, Ne.symm h.1, ih h.2]

theorem stateGet_applyAssignments_none (M : List (String × Value)) :
    ∀ (s : WState) (k : String), stateGet M k = none →
    stateGet (applyAssignments M s) k = stateGet s k := by
  induction M with
  | nil => intro s k _; rfl
  | cons kv rest ih =>
    obtain ⟨k0, v0⟩ := kv
    intro s k hk
    simp only [stateGet] at hk
    by_cases h0 : k0 = k
    · rw [if_pos h0] at hk; cases hk
    · rw [if_neg h0] at hk
      rw [applyAssignments_cons, ih _ k hk, stateGet_stateSet, if_neg (fun hh => h0 hh.symm)]

theorem stateGet_applyAssignments_some (M : List (String × Value)) :
    ∀ (s : WState) (k : String) (v : Value), (M.map Prod.fst).Nodup →
    stateGet M k = some v →
    stateGet (applyAssignments M s) k = some v := by
  induction M with
  | nil => intro s k v _ hk; cases hk
  | cons kv rest ih =>
    obtain ⟨k0, v0⟩ := kv
    intro s k v hnd hk
    simp only [List.map_cons, List.nodup_cons] at hnd
    obtain ⟨h0mem, hnd⟩ := hnd
    simp only [stateGet] at hk
    rw [applyAssignments_cons]
    by_cases h0 : k0 = k
    · rw [if_pos h0] at hk
      injection hk with hk1
      subst h0
      have hnone : stateGet rest k0 = none := stateGet_not_mem rest k0 h0mem
      rw [stateGet_applyAssignments_none rest _ k0 hnone, stateGet_stateSet, if_pos rfl, hk1]
    · rw [if_neg h0] at hk
      exact ih _ k v hnd hk

theorem applyAssignments_isSome (M : List (String × Value)) :
    ∀ (s : WState) (k : String), (stateGet s k).isSome →
    (stateGet (applyAssignments M s) k).isSome := by
  induction M with
  | nil => intro s k h; exact h
  | cons kv rest ih =>
    intro s k h
    rw [applyAssignments_cons]
    exact ih _ k (stateGet_stateSet_isSome s kv.1 kv.2 k h)

theorem executeBranchDoTask_isSome (o : Collaborator) :
    ∀ (body : List TaskItem) (last : Value) (s : WState) (k : String),
    (stateGet s k).isSome →
    (stateGet (executeBranchDoTask o body last s).2 k).isSome := by
  intro body
  induction body with
  | nil => intro last s k h; exact h
  | cons t rest ih =>
    intro last s k h
    cases t with
    | call tk m ep b hd =>
      simp only [executeBranchDoTask]
      cases hr : executeBranchHTTPTask o m ep b hd with
      | error e => simpa [hr] using h
      | ok r =>
        simp only [hr]
        exact ih r _ k (stateGet_stateSet_isSome s _ r k h)
    | set tk assignments =>
      simp only [executeBranchDoTask, executeBranchSetTask]
      exact ih _ _ k (stateGet_stateSet_isSome _ _ _ k (applyAssignments_isSome assignments s k h))
    | fork tk branches => simpa [executeBranchDoTask] using h
    | doTask tk nested => simpa [executeBranchDoTask] using h
    | switchTask tk cases' => simpa [executeBranchDoTask] using h
    | forTask tk en ie nested => simpa [executeBranchDoTask] using h

theorem executeBranchTasks_isSome (o : Collaborator) :
    ∀ (tasks : List TaskItem) (last : Value) (s : WState) (k : String),
    (stateGet s k).isSome →
    (stateGet (executeBranchTasks o tasks last s).2 k).isSome := by
  intro tasks
  induction tasks with
  | nil => intro last s k h; exact h
  | cons t rest ih =>
    intro last s k h
    cases t with
    | call tk m ep b hd =>
      simp only [executeBranchTasks]
      cases hr : executeBranchHTTPTask o m ep b hd with
      | error e => simpa [hr] using h
      | ok r =>
        simp only [hr]
        exact ih r _ k (stateGet_stateSet_isSome s _ r k h)
    | set tk assignments =>
      simp only [executeBranchTasks, executeBranchSetTask]
      exact ih _ _ k (stateGet_stateSet_isSome _ _ _ k (applyAssignments_isSome assignments s k h))
    | doTask tk nested =>
      simp only [executeBranchTasks]
      cases hr : executeBranchDoTask o nested .null s with
      | mk r1 s1 =>
        cases r1 with
        | error e =>
          simp only [hr]
          have := executeBranchDoTask_isSome o nested .null s k h
          rw [hr] at this
          exact this
        | ok r =>
          simp only [hr]
          have h1 := executeBranchDoTask_isSome o nested .null s k h
          rw [hr] at h1
          exact ih r _ k (stateGet_stateSet_isSome s1 _ r k h1)
    | fork tk branches => simpa [executeBranchTasks] using h
    | switchTask tk cases' => simpa [executeBranchTasks] using h
    | forTask tk en ie nested => simpa [executeBranchTasks] using h

/-- When `ExecuteBranchActivity` succeeds, its value is the wrapper object
with exactly the keys `branch_result`, `task_count`, `state`, and the final
branch state keeps every key that the parent state had at fork time. -/
theorem ExecuteBranchActivity_ok_shape (o : Collaborator) (tasks : List TaskItem)
    (pState : WState) (w : Value)
    (h : ExecuteBranchActivity o tasks pState = .ok w) :
    ∃ (last : Value) (fState : WState),
      w = .obj [("branch_result", last),
                ("task_count", .num (tasks.length : ℚ)),
                ("state", .obj fState)] ∧
      ∀ k, (stateGet pState k).isSome → (stateGet fState k).isSome := by
  simp only [ExecuteBranchActivity] at h
  cases hr : executeBranchTasks o tasks .null pState with
  | mk r1 s1 =>
    cases r1 with
    | error e => rw [hr] at h; cases h
    | ok last =>
      rw [hr] at h
      injection h with h1
      refine ⟨last, s1, h1.symm, ?_⟩
      intro k hk
      have := executeBranchTasks_isSome o tasks .null pState k hk
      rw [hr] at this
      exact this

/-- Task execution never deletes state keys: the dispatcher and every task
kind only ever write bindings (`state[k] = v`), so any key present before a
task runs is still present afterwards. -/
theorem interpreter_preserves_keys (o : Collaborator) :
    (∀ (i : Nat) (last : Value) (tasks : List TaskItem) (s : WState) (k : String),
        (stateGet s k).isSome →
        (stateGet (executeTasksFrom o i last tasks s).2 k).isSome) ∧
    (∀ (t : TaskItem) (s : WState) (k : String),
        (stateGet s k).isSome →
        (stateGet (executeTaskItem o t s).2 k).isSome) := by
  have hcall : ∀ (s : WState) (a a1 a2 : String) (a3 : Value)
      (a4 : List (String × String)) (k : String), (stateGet s k).isSome →
      (stateGet (executeTaskItem o (.call a a1 a2 a3 a4) s).2 k).isSome := by
    intro s a a1 a2 a3 a4 k h
    simpa [executeTaskItem] using h
  have hfork : ∀ (s : WState) (a : String) (a1 : List TaskItem) (k : String),
      (stateGet s k).isSome →
      (stateGet (executeTaskItem o (.fork a a1) s).2 k).isSome := by
    intro s a a1 k h
    simpa [executeTaskItem] using h
  have hset : ∀ (s : WState) (a : String) (a1 : List (String × Value)) (k : String),
      (stateGet s k).isSome →
      (stateGet (executeTaskItem o (.set a a1) s).2 k).isSome := by
    intro s a a1 k h
    simpa [executeTaskItem] using applyAssignments_isSome a1 s k h
  have hdo : ∀ (s : WState) (a : String) (a1 : List TaskItem),
      (∀ k, (stateGet s k).isSome →
        (stateGet (executeTasksFrom o 0 .null a1 s).2 k).isSome) →
      ∀ k, (stateGet s k).isSome →
      (stateGet (executeTaskItem o (.doTask a a1) s).2 k).isSome := by
    intro s a a1 ih k h
    simpa [executeTaskItem] using ih k h
  have hswitch : ∀ (s : WState) (a : String) (a1 : List SwitchCase) (k : String),
      (stateGet s k).isSome →
      (stateGet (executeTaskItem o (.switchTask a a1) s).2 k).isSome := by
    intro s a a1 k h
    simpa [executeTaskItem] using h
  have hfor : ∀ (s : WState) (a a1 a2 : String) (a3 : List TaskItem) (k : String),
      (stateGet s k).isSome →
      (stateGet (executeTaskItem o (.forTask a a1 a2 a3) s).2 k).isSome := by
    intro s a a1 a2 a3 k h
    simpa [executeTaskItem] using h
  have hnil : ∀ (i : Nat) (last : Value) (s : WState) (k : String),
      (stateGet s k).isSome →
      (stateGet (executeTasksFrom o i last [] s).2 k).isSome := by
    intro i last s k h
    simpa [executeTasksFrom_nil] using h
  have hconsErr : ∀ (i : Nat) (last : Value) (s : WState) (t : TaskItem)
      (rest : List TaskItem) (e : Err) (s1 : WState),
      executeTaskItem o t s = (.error e, s1) →
      (∀ k, (stateGet s k).isSome → (stateGet (executeTaskItem o t s).2 k).isSome) →
      ∀ k, (stateGet s k).isSome →
      (stateGet (executeTasksFrom o i last (t :: rest) s).2 k).isSome := by
    intro i last s t rest e s1 hstep ih k h
    rw [executeTasksFrom_cons_error o i last t rest s e s1 hstep]
    have h1 := ih k h
    rw [hstep] at h1
    exact h1
  have hconsOk : ∀ (i : Nat) (last : Value) (s : WState) (t : TaskItem)
      (rest : List TaskItem) (r : Value) (s1 : WState),
      executeTaskItem o t s = (.ok r, s1) →
      (∀ k, (stateGet s k).isSome → (stateGet (executeTaskItem o t s).2 k).isSome) →
      (∀ k, (stateGet (recordResult s1 i t.key r) k).isSome →
        (stateGet (executeTasksFrom o (i + 1) r rest (recordResult s1 i t.key r)).2 k).isSome) →
      ∀ k, (stateGet s k).isSome →
      (stateGet (executeTasksFrom o i last (t :: rest) s).2 k).isSome := by
    intro i last s t rest r s1 hstep ih1 ih2 k h
    rw [executeTasksFrom_cons_ok o i last t rest s r s1 hstep]
    have h1 := ih1 k h
    rw [hstep] at h1
    exact ih2 k (stateGet_stateSet_isSome _ _ _ _ (stateGet_stateSet_isSome _ _ _ _ h1))
  exact ⟨executeTasksFrom.induct o
      (fun i last tasks s => ∀ k, (stateGet s k).isSome →
        (stateGet (executeTasksFrom o i last tasks s).2 k).isSome)
      (fun t s => ∀ k, (stateGet s k).isSome →
        (stateGet (executeTaskItem o t s).2 k).isSome)
      hcall hfork hset hdo hswitch hfor hnil hconsErr hconsOk,
    executeTaskItem.induct o
      (fun i last tasks s => ∀ k, (stateGet s k).isSome →
        (stateGet (executeTasksFrom o i last tasks s).2 k).isSome)
      (fun t s => ∀ k, (stateGet s k).isSome →
        (stateGet (executeTaskItem o t s).2 k).isSome)
      hcall hfork hset hdo hswitch hfor hnil hconsErr hconsOk⟩

theorem executeTasksFrom_append_ok (o : Collaborator) (xs ys : List TaskItem)
    (i : Nat) (last : Value) (s : WState) (v : Value) (s1 : WState)
    (h : executeTasksFrom o i last xs s = (.ok v, s1)) :
    executeTasksFrom o i last (xs ++ ys) s
      = executeTasksFrom o (i + xs.length) v ys s1 := by
  rw [executeTasksFrom_append o xs ys i last s, h]

theorem executeForkTaskItem_ok_join (o : Collaborator) (branches : List TaskItem)
    (s : WState) (vs : List Value)
    (h : executeForkTaskItem o branches s = .ok (.arr vs)) :
    joinBranches o s 0 branches = .ok vs := by
  cases branches with
  | nil => simp [executeForkTaskItem] at h
  | cons b bs =>
    simp only [executeForkTaskItem] at h
    cases hj : joinBranches o s 0 (b :: bs) with
    | error e => rw [hj] at h; cases h
    | ok vs' =>
      rw [hj] at h
      injection h with h1
      injection h1 with h2
      rw [h2]

theorem joinBranches_all_ok (o : Collaborator) (s : WState) :
    ∀ (branches : List TaskItem) (i : Nat),
    (∀ (j : Nat) (b : TaskItem), branches[j]? = some b →
       ∃ w, ExecuteBranchActivity o [b] s = .ok w) →
    ∃ vs, joinBranches o s i branches = .ok vs := by
  intro branches
  induction branches with
  | nil => intro i _; exact ⟨[], rfl⟩
  | cons b rest ih =>
    intro i hall
    obtain ⟨w, hw⟩ := hall 0 b (by simp)
    obtain ⟨ws, hws⟩ := ih (i + 1) (fun j b' hj => hall (j + 1) b' (by simpa using hj))
    exact ⟨w :: ws, by simp [joinBranches, hw, hws]⟩

/-- C1: the dispatcher executes a task list strictly in declaration order
(the run of `t :: rest` is the step on `t` followed by the run of `rest`);
after each item succeeds, its result is recorded in the current state under
both the item's key and the positional alias `task_i_result`; the empty
tail returns the accumulated last result, so the value of the whole list is
the result of the last executed item. -/
theorem taskList_sequential_aliases_and_last_result (o : Collaborator) :
    (∀ (i : Nat) (last : Value) (s : WState),
        executeTasksFrom o i last [] s = (.ok last, s)) ∧
    (∀ (i : Nat) (last : Value) (t : TaskItem) (rest : List TaskItem)
        (s : WState) (r : Value) (s1 : WState),
        executeTaskItem o t s = (.ok r, s1) →
        executeTasksFrom o i last (t :: rest) s
          = executeTasksFrom o (i + 1) r rest (recordResult s1 i t.key r) ∧
        stateGet (recordResult s1 i t.key r) t.key = some r ∧
        stateGet (recordResult s1 i t.key r) (taskAlias i) = some r) ∧
    (∀ (tasks : List TaskItem) (i : Nat) (last : Value) (s : WState)
        (v : Value) (s' : WState) (hne : tasks ≠ []),
        executeTasksFrom o i last tasks s = (.ok v, s') →
        ∃ s0 s1, executeTaskItem o (tasks.getLast hne) s0 = (.ok v, s1)) := by
  refine ⟨executeTasksFrom_nil o, ?_, ?_⟩
  · intro i last t rest s r s1 hstep
    refine ⟨executeTasksFrom_cons_ok o i last t rest s r s1 hstep, ?_, ?_⟩
    · unfold recordResult
      rw [stateGet_stateSet, if_pos rfl]
    · unfold recordResult
      rw [stateGet_stateSet]
      by_cases hk : taskAlias i = t.key
      · rw [if_pos hk]
      · rw [if_neg hk, stateGet_stateSet, if_pos rfl]
  · intro tasks
    induction tasks with
    | nil => intro i last s v s' hne h; exact absurd rfl hne
    | cons t rest ih =>
      intro i last s v s' hne h
      cases hstep : executeTaskItem o t s with
      | mk r1 s1 =>
        cases r1 with
        | error e =>
          rw [executeTasksFrom_cons_error o i last t rest s e s1 hstep] at h
          simp at h
        | ok r =>
          rw [executeTasksFrom_cons_ok o i last t rest s r s1 hstep] at h
          cases rest with
          | nil =>
            rw [executeTasksFrom_nil] at h
            injection h with h1 h2
            injection h1 with h3
            subst h3
            exact ⟨s, s1, by simpa [List.getLast] using hstep⟩
          | cons t2 rest2 =>
            have hne2 : t2 :: rest2 ≠ [] := List.cons_ne_nil _ _
            obtain ⟨s0, s1', hlast⟩ :=
              ih (i + 1) r (recordResult s1 i t.key r) v s' hne2 h
            refine ⟨s0, s1', ?_⟩
            rw [List.getLast_cons hne2]
            exact hlast

/-- Witness for C1 at one concrete Set item: the step equation and both
recorded bindings, instantiated and evaluated. -/
theorem taskList_sequential_aliases_and_last_result_witness :
    executeTasksFrom demoOracle 0 .null [.set "x" [("a", .num 1)]] []
      = executeTasksFrom demoOracle 1 (.obj [("a", .num 1)]) []
          (recordResult [("a", .num 1)] 0 "x" (.obj [("a", .num 1)])) ∧
    stateGet (recordResult [("a", .num 1)] 0 "x" (.obj [("a", .num 1)])) "x"
      = some (.obj [("a", .num 1)]) ∧
    stateGet (recordResult [("a", .num 1)] 0 "x" (.obj [("a", .num 1)])) (taskAlias 0)
      = some (.obj [("a", .num 1)]) :=
  (taskList_sequential_aliases_and_last_result demoOracle).2.1 0 .null
    (.set "x" [("a", .num 1)]) [] [] (.obj [("a", .num 1)]) [("a", .num 1)] rfl

/-- C4: if the items of `pre` all succeed and the next item `bad` fails,
the whole list `pre ++ bad :: post` fails with `bad`'s wrapped error and
the items of `post` never influence the outcome; the state returned
alongside the error is the one `bad`'s own execution left behind, which
still contains every key written by the items of `pre` (task execution
never deletes bindings). -/
theorem failing_task_aborts_rest_and_keeps_prior_state (o : Collaborator)
    (pre : List TaskItem) (bad : TaskItem) (post : List TaskItem)
    (s : WState) (v : Value) (s1 : WState) (e : Err) (s2 : WState)
    (hpre : executeTasksFrom o 0 .null pre s = (.ok v, s1))
    (hbad : executeTaskItem o bad s1 = (.error e, s2)) :
    executeTasksFrom o 0 .null (pre ++ bad :: post) s
      = (.error (.taskFailed pre.length bad.key e), s2) ∧
    ∀ k, (stateGet s1 k).isSome → (stateGet s2 k).isSome := by
  constructor
  · rw [executeTasksFrom_append_ok o pre (bad :: post) 0 .null s v s1 hpre,
        executeTasksFrom_cons_error o (0 + pre.length) v bad post s1 e s2 hbad,
        Nat.zero_add]
  · intro k hk
    have h2 := (interpreter_preserves_keys o).2 bad s1 k hk
    rw [hbad] at h2
    exact h2

/-- Witness for C4: a Set task succeeds, then a For item (unsupported)
fails; the trailing Set never runs and the pre-failure binding survives. -/
theorem failing_task_aborts_rest_and_keeps_prior_state_witness :
    executeTasksFrom demoOracle 0 .null
        ([.set "a" [("p", .num 7)]] ++ (.forTask "loop" "item" ".xs" []) ::
          [.set "never" [("q", .num 9)]]) []
      = (.error (.taskFailed 1 "loop" (.unsupportedTaskKind "loop")),
         [("p", .num 7), ("task_0_result", .obj [("p", .num 7)]),
          ("a", .obj [("p", .num 7)])]) ∧
    ∀ k, (stateGet [("p", .num 7), ("task_0_result", .obj [("p", .num 7)]),
            ("a", .obj [("p", .num 7)])] k).isSome →
         (stateGet [("p", .num 7), ("task_0_result", .obj [("p", .num 7)]),
            ("a", .obj [("p", .num 7)])] k).isSome :=
  failing_task_aborts_rest_and_keeps_prior_state demoOracle
    [.set "a" [("p", .num 7)]] (.forTask "loop" "item" ".xs" [])
    [.set "never" [("q", .num 9)]] [] (.obj [("p", .num 7)])
    [("p", .num 7), ("task_0_result", .obj [("p", .num 7)]),
     ("a", .obj [("p", .num 7)])]
    (.unsupportedTaskKind "loop")
    [("p", .num 7), ("task_0_result", .obj [("p", .num 7)]),
     ("a", .obj [("p", .num 7)])]
    rfl rfl

/-- C3: fork isolation.  A fork item leaves the parent state untouched
(the step equation records only the fork's own result), so after the fork
every parent key other than the fork's key and its positional alias still
has its fork-time value; and each branch's outcome is
`ExecuteBranchActivity` applied to that branch and the fork-time snapshot
`s` alone, so no branch can observe a sibling's mutations and no branch
state ever reaches the parent. -/
theorem fork_branch_isolation (o : Collaborator) (i : Nat) (last : Value)
    (key : String) (branches rest : List TaskItem) (s : WState) (vs : List Value)
    (h : executeForkTaskItem o branches s = .ok (.arr vs)) :
    executeTasksFrom o i last (.fork key branches :: rest) s
      = executeTasksFrom o (i + 1) (.arr vs) rest (recordResult s i key (.arr vs)) ∧
    (∀ k, k ≠ key → k ≠ taskAlias i →
        stateGet (recordResult s i key (.arr vs)) k = stateGet s k) ∧
    (∀ (j : Nat) (b : TaskItem), branches[j]? = some b →
        ∃ w, ExecuteBranchActivity o [b] s = .ok w ∧ vs[j]? = some w) := by
  have hitem : executeTaskItem o (.fork key branches) s = (.ok (.arr vs), s) := by
    simp [executeTaskItem, h]
  refine ⟨executeTasksFrom_cons_ok o i last _ rest s (.arr vs) s hitem, ?_, ?_⟩
  · intro k hk ha
    unfold recordResult
    rw [stateGet_stateSet, if_neg hk, stateGet_stateSet, if_neg ha]
  · exact (joinBranches_ok o s branches 0 vs
      (executeForkTaskItem_ok_join o branches s vs h)).2

/-- Witness for C3: one branch writing `a`, a parent state carrying `keep`;
the preserved-key conjunct evaluated at `keep`. -/
theorem fork_branch_isolation_witness :
    executeTasksFrom demoOracle 0 .null
        [.fork "par" [.set "w1" [("a", .num 3)]]] [("keep", .bool true)]
      = executeTasksFrom demoOracle 1
          (.arr [.obj [("branch_result", .obj [("a", .num 3)]),
                       ("task_count", .num 1),
                       ("state", .obj [("keep", .bool true), ("a", .num 3),
                                       ("w1", .obj [("a", .num 3)])])]])
          []
          (recordResult [("keep", .bool true)] 0 "par"
            (.arr [.obj [("branch_result", .obj [("a", .num 3)]),
                         ("task_count", .num 1),
                         ("state", .obj [("keep", .bool true), ("a", .num 3),
                                         ("w1", .obj [("a", .num 3)])])]])) ∧
    (∀ k, k ≠ "par" → k ≠ taskAlias 0 →
        stateGet (recordResult [("keep", .bool true)] 0 "par"
          (.arr [.obj [("branch_result", .obj [("a", .num 3)]),
                       ("task_count", .num 1),
                       ("state", .obj [("keep", .bool true), ("a", .num 3),
                                       ("w1", .obj [("a", .num 3)])])]])) k
          = stateGet [("keep", .bool true)] k) ∧
    (∀ (j : Nat) (b : TaskItem),
        ([TaskItem.set "w1" [("a", .num 3)]])[j]? = some b →
        ∃ w, ExecuteBranchActivity demoOracle [b] [("keep", .bool true)] = .ok w ∧
          ([Value.obj [("branch_result", .obj [("a", .num 3)]),
                       ("task_count", .num 1),
                       ("state", .obj [("keep", .bool true), ("a", .num 3),
                                       ("w1", .obj [("a", .num 3)])])]])[j]? = some w) :=
  fork_branch_isolation demoOracle 0 .null "par"
    [.set "w1" [("a", .num 3)]] [] [("keep", .bool true)]
    [.obj [("branch_result", .obj [("a", .num 3)]),
           ("task_count", .num 1),
           ("state", .obj [("keep", .bool true), ("a", .num 3),
                           ("w1", .obj [("a", .num 3)])])]]
    rfl

/-- C5: when every branch of a non-empty fork succeeds, the fork returns an
array of exactly one element per branch whose j-th entry is the j-th
branch's result — declaration order by construction.  The join loop reads
`futures[j].Get` at position `j`, and each settled outcome is a pure
function of the branch and the fork-time state, so the assembled array
cannot depend on the real-time completion order of the branch
activities. -/
theorem fork_results_follow_declaration_order (o : Collaborator)
    (branches : List TaskItem) (s : WState) (hne : branches ≠ [])
    (hall : ∀ (j : Nat) (b : TaskItem), branches[j]? = some b →
        ∃ w, ExecuteBranchActivity o [b] s = .ok w) :
    ∃ vs, executeForkTaskItem o branches s = .ok (.arr vs) ∧
      vs.length = branches.length ∧
      ∀ (j : Nat) (b : TaskItem) (w : Value), branches[j]? = some b →
        ExecuteBranchActivity o [b] s = .ok w → vs[j]? = some w := by
  obtain ⟨vs, hvs⟩ := joinBranches_all_ok o s branches 0 hall
  refine ⟨vs, ?_, ?_⟩
  · cases branches with
    | nil => exact absurd rfl hne
    | cons b bs => simp [executeForkTaskItem, hvs]
  · obtain ⟨hlen, hget⟩ := joinBranches_ok o s branches 0 vs hvs
    refine ⟨hlen, ?_⟩
    intro j b w hj hw
    obtain ⟨w', hw', hv⟩ := hget j b hj
    rw [hw] at hw'
    injection hw' with h1
    rw [h1]
    exact hv

/-- Witness for C5 with two branches: the result array pairs index 0 with
branch 0's wrapper and index 1 with branch 1's wrapper. -/
theorem fork_results_follow_declaration_order_witness :
    ∃ vs, executeForkTaskItem demoOracle
        [.set "b1" [("x", .num 1)], .set "b2" [("y", .num 2)]] [] = .ok (.arr vs) ∧
      vs.length = ([TaskItem.set "b1" [("x", .num 1)],
                    TaskItem.set "b2" [("y", .num 2)]] : List TaskItem).length ∧
      ∀ (j : Nat) (b : TaskItem) (w : Value),
        ([TaskItem.set "b1" [("x", .num 1)],
          TaskItem.set "b2" [("y", .num 2)]] : List TaskItem)[j]? = some b →
        ExecuteBranchActivity demoOracle [b] [] = .ok w → vs[j]? = some w :=
  fork_results_follow_declaration_order demoOracle
    [.set "b1" [("x", .num 1)], .set "b2" [("y", .num 2)]] []
    (List.cons_ne_nil _ _)
    (by
      intro j b hj
      match j with
      | 0 =>
        simp only [List.getElem?_cons_zero] at hj
        injection hj with h1
        rw [← h1]
        exact ⟨_, rfl⟩
      | 1 =>
        simp only [List.getElem?_cons_succ, List.getElem?_cons_zero] at hj
        injection hj with h1
        rw [← h1]
        exact ⟨_, rfl⟩
      | (n + 2) => simp at hj)

/-- C7: a fork with an absent or empty branch list fails with the
empty-fork error, and a fork with at least one branch never reports that
error (its only failure mode is a wrapped branch failure). -/
theorem fork_requires_at_least_one_branch (o : Collaborator) (s : WState) :
    executeForkTaskItem o [] s = .error .emptyFork ∧
    ∀ (branches : List TaskItem), branches ≠ [] →
      executeForkTaskItem o branches s ≠ .error .emptyFork := by
  refine ⟨rfl, ?_⟩
  intro branches hne hcontra
  cases branches with
  | nil => exact hne rfl
  | cons b bs =>
    simp only [executeForkTaskItem] at hcontra
    cases hj : joinBranches o s 0 (b :: bs) with
    | error e =>
      rw [hj] at hcontra
      injection hcontra with h1
      obtain ⟨j, e0, he⟩ := joinBranches_error_shape o s (b :: bs) 0 e hj
      rw [he] at h1
      cases h1
    | ok vs =>
      rw [hj] at hcontra
      cases hcontra

/-- Witness for C7: the empty fork errs with EmptyFork; a one-branch fork
does not. -/
theorem fork_requires_at_least_one_branch_witness :
    executeForkTaskItem failOracle [] [] = .error .emptyFork ∧
    executeForkTaskItem failOracle [.set "b" [("z", .num 5)]] []
      ≠ .error .emptyFork :=
  ⟨(fork_requires_at_least_one_branch failOracle []).1,
   (fork_requires_at_least_one_branch failOracle []).2
     [.set "b" [("z", .num 5)]] (List.cons_ne_nil _ _)⟩

/-- C2 counterexample: a Switch item — a member of the claimed supported
set {Set, Switch, For, Fork, Do, Call} — dispatches straight to the
unsupported-task-kind error, refuting the claim as stated. -/
theorem dispatch_switch_item_counterexample :
    executeTaskItem demoOracle
        (.switchTask "checkCondition"
          [⟨"case1", some ".value", "continue"⟩, ⟨"default", none, "continue"⟩]) []
      = (.error (.unsupportedTaskKind "checkCondition"), []) := rfl

/-- C2 (amended): the kinds the dispatcher actually recognizes are
Call-HTTP, Fork, Set and Do; dispatching an item of any other kind
(including Switch and For) fails with the unsupported-task-kind error
naming the item — never a silent skip — while dispatching one of the four
recognized kinds never reports an unsupported-task-kind error at the top
level. -/
theorem dispatch_supported_kind_characterization (o : Collaborator)
    (t : TaskItem) (s : WState) :
    (supportedKind t = false →
        executeTaskItem o t s = (.error (.unsupportedTaskKind t.key), s)) ∧
    (supportedKind t = true →
        ∀ (e : Err) (k : String), (executeTaskItem o t s).1 = .error e →
          e ≠ .unsupportedTaskKind k) := by
  constructor
  · intro hf
    cases t with
    | call k m ep b hd => simp [supportedKind] at hf
    | fork k bs => simp [supportedKind] at hf
    | set k as => simp [supportedKind] at hf
    | doTask k body => simp [supportedKind] at hf
    | switchTask k cs => rfl
    | forTask k en ie body => rfl
  · intro ht e k hr
    cases t with
    | call key m ep b hd =>
      simp only [executeTaskItem] at hr
      unfold executeHTTPTask at hr
      cases hc : o.httpCallActivity ⟨m, ep, b, hd⟩ with
      | error e0 =>
        rw [hc] at hr
        injection hr with h1
        rw [← h1]
        intro hcon
        cases hcon
      | ok v => rw [hc] at hr; cases hr
    | fork key bs =>
      simp only [executeTaskItem] at hr
      cases bs with
      | nil =>
        simp only [executeForkTaskItem] at hr
        injection hr with h1
        rw [← h1]
        intro hcon
        cases hcon
      | cons b bs' =>
        simp only [executeForkTaskItem] at hr
        cases hj : joinBranches o s 0 (b :: bs') with
        | error e0 =>
          rw [hj] at hr
          injection hr with h1
          obtain ⟨j, e1, he⟩ := joinBranches_error_shape o s _ 0 e0 hj
          rw [← h1, he]
          intro hcon
          cases hcon
        | ok vs => rw [hj] at hr; cases hr
    | set key as => simp [executeTaskItem] at hr
    | doTask key body =>
      simp only [executeTaskItem] at hr
      cases hrun : executeTasksFrom o 0 .null body s with
      | mk r1 s1 =>
        cases r1 with
        | error e0 =>
          obtain ⟨j, kk, e1, he⟩ :=
            executeTasksFrom_error_shape o body 0 .null s e0 s1 hrun
          rw [hrun] at hr
          simp only at hr
          injection hr with h1
          rw [← h1, he]
          intro hcon
          cases hcon
        | ok r => rw [hrun] at hr; simp at hr
    | switchTask key cs => simp [supportedKind] at ht
    | forTask key en ie body => simp [supportedKind] at ht

/-- Witness for C2 (amended): a For item errs as unsupported; a failing
HTTP call's error is a call-failure wrap, not an unsupported-kind error. -/
theorem dispatch_supported_kind_characterization_witness :
    executeTaskItem demoOracle (.forTask "loop" "item" ".items" []) []
      = (.error (.unsupportedTaskKind "loop"), []) ∧
    Err.callFailed (.external "connection refused")
      ≠ Err.unsupportedTaskKind "c" :=
  ⟨(dispatch_supported_kind_characterization demoOracle
      (.forTask "loop" "item" ".items" []) []).1 rfl,
   (dispatch_supported_kind_characterization failOracle
      (.call "c" "GET" "http://example.com" .null []) []).2 rfl
      (Err.callFailed (.external "connection refused")) "c" rfl⟩

/-- C6 counterexample: a Switch whose case list is empty (so no case can
match) does not complete with a null result — it fails with the
unsupported-task-kind error, refuting the claim as stated. -/
theorem switch_no_match_counterexample :
    executeTaskItem demoOracle (.switchTask "sw" []) [("value", .str "test")]
      ≠ (.ok .null, [("value", .str "test")]) ∧
    executeTaskItem demoOracle (.switchTask "sw" []) [("value", .str "test")]
      = (.error (.unsupportedTaskKind "sw"), [("value", .str "test")]) :=
  ⟨by simp [executeTaskItem], rfl⟩

/-- C6 (amended): Switch tasks are never executed by this engine — every
Switch item, whatever its cases, fails with the unsupported-task-kind
error; no case is evaluated and no null result is produced. -/
theorem switch_task_always_unsupported (o : Collaborator) (key : String)
    (cs : List SwitchCase) (s : WState) :
    executeTaskItem o (.switchTask key cs) s
      = (.error (.unsupportedTaskKind key), s) := rfl

/-- C8: a Set task always succeeds; it returns exactly the assignments map
(not the whole state); every assigned key reads back its assigned value,
every other key is untouched; and re-applying the same assignments changes
nothing (idempotence, stated pointwise, i.e. as map equality). -/
theorem set_task_overwrite_result_and_idempotence (o : Collaborator)
    (key : String) (M : List (String × Value)) (s : WState)
    (hnd : (M.map Prod.fst).Nodup) :
    executeTaskItem o (.set key M) s = (.ok (.obj M), applyAssignments M s) ∧
    (∀ k v, stateGet M k = some v → stateGet (applyAssignments M s) k = some v) ∧
    (∀ k, stateGet M k = none → stateGet (applyAssignments M s) k = stateGet s k) ∧
    (∀ k, stateGet (applyAssignments M (applyAssignments M s)) k
        = stateGet (applyAssignments M s) k) := by
  refine ⟨rfl, ?_, ?_, ?_⟩
  · intro k v hv
    exact stateGet_applyAssignments_some M s k v hnd hv
  · intro k hv
    exact stateGet_applyAssignments_none M s k hv
  · intro k
    cases hv : stateGet M k with
    | some v =>
      rw [stateGet_applyAssignments_some M _ k v hnd hv,
          stateGet_applyAssignments_some M s k v hnd hv]
    | none =>
      rw [stateGet_applyAssignments_none M _ k hv]

/-- Witness for C8 at a concrete two-key assignment over a state that
already holds one of the keys. -/
theorem set_task_overwrite_result_and_idempotence_witness :
    executeTaskItem demoOracle (.set "st" [("a", .num 1), ("b", .str "x")])
        [("a", .num 0), ("c", .bool true)]
      = (.ok (.obj [("a", .num 1), ("b", .str "x")]),
         applyAssignments [("a", .num 1), ("b", .str "x")]
           [("a", .num 0), ("c", .bool true)]) ∧
    (∀ k v, stateGet [("a", .num 1), ("b", .str "x")] k = some v →
        stateGet (applyAssignments [("a", .num 1), ("b", .str "x")]
          [("a", .num 0), ("c", .bool true)]) k = some v) ∧
    (∀ k, stateGet [("a", .num 1), ("b", .str "x")] k = none →
        stateGet (applyAssignments [("a", .num 1), ("b", .str "x")]
          [("a", .num 0), ("c", .bool true)]) k
          = stateGet [("a", .num 0), ("c", .bool true)] k) ∧
    (∀ k, stateGet (applyAssignments [("a", .num 1), ("b", .str "x")]
          (applyAssignments [("a", .num 1), ("b", .str "x")]
            [("a", .num 0), ("c", .bool true)])) k
        = stateGet (applyAssignments [("a", .num 1), ("b", .str "x")]
            [("a", .num 0), ("c", .bool true)]) k) :=
  set_task_overwrite_result_and_idempotence demoOracle "st"
    [("a", .num 1), ("b", .str "x")] [("a", .num 0), ("c", .bool true)]
    (by simp)

/-- C9: `isTruthy` is false exactly on null, `false`, the empty string,
numeric zero (integral or floating — both are the rational 0), the empty
array and the empty object; every other value — non-empty strings, arrays
and objects, non-zero numbers, `true`, and values of any kind outside the
enumerated set — is truthy. -/
theorem isTruthy_characterization (v : Value) :
    isTruthy v = false ↔
      (v = .null ∨ v = .bool false ∨ v = .str "" ∨ v = .num 0 ∨
       v = .arr [] ∨ v = .obj []) := by
  cases v with
  | null => simp [isTruthy]
  | bool b => cases b <;> simp [isTruthy]
  | num q => simp [isTruthy]
  | str s => simp [isTruthy]
  | arr es => cases es <;> simp [isTruthy]
  | obj fs => cases fs <;> simp [isTruthy]
  | other t => simp [isTruthy]

/-- C10: every element of a successful fork's result array is not a bare
branch value but the wrapper object with exactly the keys `branch_result`
(the branch's last task result), `task_count` (the length of the
single-item task list each branch is wrapped into, i.e. 1), and `state`
(the branch's entire final state, which still holds every key copied from
the parent state at fork time); the array of wrappers is exactly what gets
recorded under the fork task's key in the parent state. -/
theorem fork_result_elements_are_branch_wrappers (o : Collaborator)
    (i : Nat) (last : Value) (key : String) (branches rest : List TaskItem)
    (s : WState) (vs : List Value)
    (h : executeForkTaskItem o branches s = .ok (.arr vs)) :
    (∀ w ∈ vs, ∃ (lastR : Value) (fState : WState),
        w = .obj [("branch_result", lastR), ("task_count", .num 1),
                  ("state", .obj fState)] ∧
        ∀ k, (stateGet s k).isSome → (stateGet fState k).isSome) ∧
    stateGet (recordResult s i key (.arr vs)) key = some (.arr vs) ∧
    executeTasksFrom o i last (.fork key branches :: rest) s
      = executeTasksFrom o (i + 1) (.arr vs) rest (recordResult s i key (.arr vs)) := by
  obtain ⟨hlen, hget⟩ := joinBranches_ok o s branches 0 vs
    (executeForkTaskItem_ok_join o branches s vs h)
  refine ⟨?_, ?_, ?_⟩
  · intro w hw
    obtain ⟨j, hj⟩ := List.mem_iff_getElem?.1 hw
    have hjlt : j < vs.length := by
      obtain ⟨h', _⟩ := List.getElem?_eq_some.1 hj
      exact h'
    have hjb : j < branches.length := hlen ▸ hjlt
    have hb : branches[j]? = some branches[j] := List.getElem?_eq_getElem hjb
    obtain ⟨w', hww', hvj⟩ := hget j branches[j] hb
    rw [hj] at hvj
    injection hvj with hww
    obtain ⟨lastR, fState, hshape, hkeys⟩ :=
      ExecuteBranchActivity_ok_shape o [branches[j]] s w' hww'
    refine ⟨lastR, fState, ?_, hkeys⟩
    rw [hww, hshape]
    norm_num
  · unfold recordResult
    rw [stateGet_stateSet, if_pos rfl]
  · exact executeTasksFrom_cons_ok o i last _ rest s (.arr vs) s
      (by simp [executeTaskItem, h])

/-- Witness for C10 at a one-branch fork over a parent state holding
`base`. -/
theorem fork_result_elements_are_branch_wrappers_witness :
    (∀ w ∈ ([Value.obj [("branch_result", .obj [("m", .str "hi")]),
                        ("task_count", .num 1),
                        ("state", .obj [("base", .num 4), ("m", .str "hi"),
                                        ("c1", .obj [("m", .str "hi")])])]] :
              List Value),
        ∃ (lastR : Value) (fState : WState),
          w = .obj [("branch_result", lastR), ("task_count", .num 1),
                    ("state", .obj fState)] ∧
          ∀ k, (stateGet [("base", .num 4)] k).isSome →
            (stateGet fState k).isSome) ∧
    stateGet (recordResult [("base", .num 4)] 0 "fk"
        (.arr [.obj [("branch_result", .obj [("m", .str "hi")]),
                     ("task_count", .num 1),
                     ("state", .obj [("base", .num 4), ("m", .str "hi"),
                                     ("c1", .obj [("m", .str "hi")])])]])) "fk"
      = some (.arr [.obj [("branch_result", .obj [("m", .str "hi")]),
                          ("task_count", .num 1),
                          ("state", .obj [("base", .num 4), ("m", .str "hi"),
                                          ("c1", .obj [("m", .str "hi")])])]]) ∧
    executeTasksFrom demoOracle 0 .null
        [.fork "fk" [.set "c1" [("m", .str "hi")]]] [("base", .num 4)]
      = executeTasksFrom demoOracle 1
          (.arr [.obj [("branch_result", .obj [("m", .str "hi")]),
                       ("task_count", .num 1),
                       ("state", .obj [("base", .num 4), ("m", .str "hi"),
                                       ("c1", .obj [("m", .str "hi")])])]])
          []
          (recordResult [("base", .num 4)] 0 "fk"
            (.arr [.obj [("branch_result", .obj [("m", .str "hi")]),
                         ("task_count", .num 1),
                         ("state", .obj [("base", .num 4), ("m", .str "hi"),
                                         ("c1", .obj [("m", .str "hi")])])]])) :=
  fork_result_elements_are_branch_wrappers demoOracle 0 .null "fk"
    [.set "c1" [("m", .str "hi")]] [] [("base", .num 4)]
    [.obj [("branch_result", .obj [("m", .str "hi")]),
           ("task_count", .num 1),
           ("state", .obj [("base", .num 4), ("m", .str "hi"),
                           ("c1", .obj [("m", .str "hi")])])]]
    rfl
